import Mathlib

/-!
# NotepadNext: the editor information status bar

A shallow embedding of `src/NotepadNext/widgets/EditorInfoStatusBar.cpp`.

The status bar owns six labels and keeps them in step with the active editor.
Label texts are `String`s. What the editor returns are mathematical integers;
where the source stores such a value in a C++ `int` local (`start`, `end`,
`lines`, `pos`) the conversion to 32 bits is written out with `toCInt`. Qt's
signal connections are an explicit table of live connections with freshly
allocated handles.
-/

namespace NotepadNext

/-! ## Qt strings: `tr`, `QLocale`, `QString::number`, `QString::arg` -/

/-- Qt's string type; its values are Lean strings. -/
abbrev QString := String

/-- Qt library behaviour: `tr` looks the source text up in the installed
translators and returns the source text itself when none translates it. The
specification describes the untranslated interface, so `tr` is the identity. -/
def tr (s : String) : QString := s

/-- Modelled from the spec: QLocale, the default locale used by the `%L` place
markers ("all numeric values are grouped with locale-appropriate digit
separators"). The locale contributes the separator written between groups of
three digits; an empty separator is a locale that does not group. No locale
groups digits with the percent sign, which `QString::arg` reserves for place
markers. -/
structure QLocale where
  groupSeparator : String
  groupSeparator_no_percent : '%' ∉ groupSeparator.data

/-- Digit grouping on the reversed digit list: `k` digits of the current group
have been written; before a fourth one the (reversed) separator is written. -/
def groupRev (sepRev : List Char) : Nat → List Char → List Char
  | _, [] => []
  | k, c :: rest =>
    if k = 3 then sepRev ++ c :: groupRev sepRev 1 rest
    else c :: groupRev sepRev (k + 1) rest

/-- The decimal digits `ds` (most significant first) in groups of three. -/
def groupDigits (sep : List Char) (ds : List Char) : List Char :=
  (groupRev sep.reverse 0 ds.reverse).reverse

/-- Modelled from the spec: QLocale::toString for an integer, the text a `%L`
marker is replaced with: a minus sign for a negative number, then the decimal
digits grouped by the locale. -/
def QLocale.toString (loc : QLocale) (n : Int) : String :=
  String.mk ((if n < 0 then ['-'] else []) ++
    groupDigits loc.groupSeparator.data (Nat.toDigits 10 n.natAbs))

/-- Qt library behaviour: `QString::number(n)` is the plain decimal rendering
of `n`, without grouping. -/
def QString.number (n : Int) : QString := toString n

/-- A piece of a scanned format string: an ordinary character, or a place
marker `%n` / `%Ln` together with the characters it was written with. -/
inductive ArgToken where
  | chr (c : Char)
  | esc (n : Nat) (localized : Bool) (raw : List Char)
  deriving DecidableEq, Repr

/-- Scanner state of `findArgEscapes`: what has been read of a possible place
marker. -/
inductive ArgPending where
  | idle
  | percent
  | percentL
  | digit (localized : Bool) (c : Char)
  deriving DecidableEq, Repr

/-- Value of an ASCII decimal digit. -/
def digitValue (c : Char) : Option Nat :=
  if c.isDigit then some (c.toNat - 48) else none

/-- The characters a marker was written with. -/
def escRaw (localized : Bool) (ds : List Char) : List Char :=
  '%' :: ((if localized then ['L'] else []) ++ ds)

/-- Qt library behaviour: the scan of `findArgEscapes` in `QString::arg`. A
place marker is a percent sign, an optional `L`, and one or two decimal
digits; a percent sign that is not followed by these is an ordinary
character and scanning goes on at the character after it. -/
def scanArg : ArgPending → List Char → List ArgToken
  | .idle, [] => []
  | .percent, [] => [.chr '%']
  | .percentL, [] => [.chr '%', .chr 'L']
  | .digit l c, [] => [.esc ((digitValue c).getD 0) l (escRaw l [c])]
  | .idle, c :: cs =>
    if c = '%' then scanArg .percent cs else .chr c :: scanArg .idle cs
  | .percent, c :: cs =>
    if c = 'L' then scanArg .percentL cs
    else if c.isDigit then scanArg (.digit false c) cs
    else if c = '%' then .chr '%' :: scanArg .percent cs
    else .chr '%' :: .chr c :: scanArg .idle cs
  | .percentL, c :: cs =>
    if c.isDigit then scanArg (.digit true c) cs
    else if c = '%' then .chr '%' :: .chr 'L' :: scanArg .percent cs
    else .chr '%' :: .chr 'L' :: .chr c :: scanArg .idle cs
  | .digit l d, c :: cs =>
    match digitValue c with
    | some v => .esc (10 * (digitValue d).getD 0 + v) l (escRaw l [d, c]) :: scanArg .idle cs
    | none =>
      if c = '%' then .esc ((digitValue d).getD 0) l (escRaw l [d]) :: scanArg .percent cs
      else .esc ((digitValue d).getD 0) l (escRaw l [d]) :: .chr c :: scanArg .idle cs

/-- The lowest marker number of a scanned string, if it has a marker. -/
def minEscape : List ArgToken → Option Nat
  | [] => none
  | .chr _ :: ts => minEscape ts
  | .esc n _ _ :: ts =>
    match minEscape ts with
    | none => some n
    | some m => some (min n m)

/-- Qt library behaviour: `replaceArgEscapes`. Every marker numbered `m` is
replaced, by the localized text when it was written with `L` and by the plain
text otherwise; all other characters and markers are copied. -/
def replaceEscapes (m : Nat) (plain localized : List Char) : List ArgToken → List Char
  | [] => []
  | .chr c :: ts => c :: replaceEscapes m plain localized ts
  | .esc n l raw :: ts =>
    if n = m then (if l then localized else plain) ++ replaceEscapes m plain localized ts
    else raw ++ replaceEscapes m plain localized ts

/-- Qt library behaviour: `QString::arg(integer)`. The lowest-numbered place
marker of the string is replaced by the number; a string without a marker is
returned as it is. -/
def QString.arg (s : QString) (loc : QLocale) (a : Int) : QString :=
  match minEscape (scanArg .idle s.data) with
  | none => s
  | some m =>
    String.mk (replaceEscapes m (QString.number a).data (loc.toString a).data
      (scanArg .idle s.data))

/-! ## The editor, as the status bar sees it -/

/-- Modelled from the spec: the Scintilla constants of the EOL mode enum
(CR / CRLF / LF) and the UTF-8 code page, declared in Scintilla.h, which is
not among the sources. The values are Scintilla's. -/
def SC_EOL_CRLF : Int := 0

/-- Modelled from the spec: EOL mode CR, see `SC_EOL_CRLF`. -/
def SC_EOL_CR : Int := 1

/-- Modelled from the spec: EOL mode LF, see `SC_EOL_CRLF`. -/
def SC_EOL_LF : Int := 2

/-- Modelled from the spec: the UTF-8 code page, see `SC_EOL_CRLF`. -/
def SC_CP_UTF8 : Int := 65001

/-- Modelled from the spec: the flag set `Scintilla::Update` carried by the
updateUi notification, declared in ScintillaTypes.h, which is not among the
sources; a bit mask. -/
abbrev Update := Nat

/-- Modelled from the spec: the "content changed" flag. -/
def Update.Content : Update := 1

/-- Modelled from the spec: the "selection changed" flag. -/
def Update.Selection : Update := 2

/-- Modelled from the spec: `Scintilla::FlagSet`, every bit of `flag` is set
in `value`. -/
def FlagSet (value flag : Update) : Bool := value &&& flag == flag

/-- Modelled from the spec: the editor component ScintillaNext, whose code is
not among the sources. The status bar uses only its read accessors (document
length, line count, selection count/start/end, line-from-position,
column-from-position, character count, current position, language name, EOL
mode enum, code-page integer, overtype boolean); an editor state is the
collection of what they return. -/
structure ScintillaNext where
  length : Int
  lineCount : Int
  selections : Int
  selectionStart : Int
  selectionEnd : Int
  currentPos : Int
  lineFromPosition : Int → Int
  column : Int → Int
  countCharacters : Int → Int → Int
  languageName : String
  eOLMode : Int
  codePage : Int
  overtype : Bool

/-- Modelled from the spec: the mutator editToggleOvertype of the editor,
whose code is not among the sources: it "flips its overtype state". -/
def ScintillaNext.editToggleOvertype (editor : ScintillaNext) : ScintillaNext :=
  { editor with overtype := !editor.overtype }

/-! ## C++ `int` -/

/-- A value lies in the range of a C++ `int` (32 bits, two's complement). -/
abbrev InIntRange (x : Int) : Prop := -2147483648 ≤ x ∧ x ≤ 2147483647

/-- Conversion of an integer to a C++ `int`: the value modulo 2^32 in the
range -2^31 .. 2^31-1. A value in that range is kept. -/
def toCInt (x : Int) : Int := (x + 2147483648) % 4294967296 - 2147483648

/-! ## The status bar -/

/-- The status bar: the text of its six labels and its two connection handles
(`QMetaObject::Connection`; `none` is the default-constructed, invalid
handle). -/
structure EditorInfoStatusBar where
  docType : String
  docSize : String
  docPos : String
  eolFormat : String
  unicodeType : String
  overType : String
  editorUiUpdated : Option Nat
  documentLexerChanged : Option Nat
  deriving DecidableEq, Repr

namespace EditorInfoStatusBar

/-- The status bar as its constructor leaves it: empty labels, no connection
to an editor. -/
def new : EditorInfoStatusBar :=
  { docType := "", docSize := "", docPos := "", eolFormat := "", unicodeType := "",
    overType := "", editorUiUpdated := none, documentLexerChanged := none }

/-- Source: `EditorInfoStatusBar::updateDocumentSize`. -/
def updateDocumentSize (loc : QLocale) (bar : EditorInfoStatusBar) (editor : ScintillaNext) :
    EditorInfoStatusBar :=
  let sizeText :=
    ((tr "Length: %L1    Lines: %L2").arg loc editor.length).arg loc editor.lineCount
  { bar with docSize := sizeText }

/-- The local variable `lines` of `updateSelectionInfo` (single selection
branch): `start`, `end` and `lines` are C++ `int`s. -/
def selectionLines (editor : ScintillaNext) : Int :=
  let start := toCInt editor.selectionStart
  let «end» := toCInt editor.selectionEnd
  let lines := toCInt (editor.lineFromPosition «end» - editor.lineFromPosition start)
  if «end» > start then toCInt (lines + 1) else lines

/-- The local variable `selectionText` of `updateSelectionInfo`. -/
def selectionText (loc : QLocale) (editor : ScintillaNext) : String :=
  if editor.selections > 1 then
    tr "Sel: N/A"
  else
    let start := toCInt editor.selectionStart
    let «end» := toCInt editor.selectionEnd
    ((tr "Sel: %L1 | %L2").arg loc (editor.countCharacters start «end»)).arg loc
      (selectionLines editor)

/-- Source: `EditorInfoStatusBar::updateSelectionInfo`; `pos` is a C++ `int`. -/
def updateSelectionInfo (loc : QLocale) (bar : EditorInfoStatusBar) (editor : ScintillaNext) :
    EditorInfoStatusBar :=
  let pos := toCInt editor.currentPos
  let positionText :=
    ((tr "Ln: %L1    Col: %L2    ").arg loc (editor.lineFromPosition pos + 1)).arg loc
      (editor.column pos + 1)
  { bar with docPos := positionText ++ selectionText loc editor }

/-- Source: `EditorInfoStatusBar::updateLanguage`. -/
def updateLanguage (bar : EditorInfoStatusBar) (editor : ScintillaNext) : EditorInfoStatusBar :=
  { bar with docType := editor.languageName }

/-- Source: `EditorInfoStatusBar::updateEol`; the switch has no default. -/
def updateEol (bar : EditorInfoStatusBar) (editor : ScintillaNext) : EditorInfoStatusBar :=
  if editor.eOLMode = SC_EOL_CR then { bar with eolFormat := tr "Macintosh (CR)" }
  else if editor.eOLMode = SC_EOL_CRLF then { bar with eolFormat := tr "Windows (CR LF)" }
  else if editor.eOLMode = SC_EOL_LF then { bar with eolFormat := tr "Unix (LF)" }
  else bar

/-- Source: `EditorInfoStatusBar::updateEncoding`. -/
def updateEncoding (bar : EditorInfoStatusBar) (editor : ScintillaNext) : EditorInfoStatusBar :=
  if editor.codePage = 0 then { bar with unicodeType := tr "ANSI" }
  else if editor.codePage = SC_CP_UTF8 then { bar with unicodeType := tr "UTF-8" }
  else { bar with unicodeType := QString.number editor.codePage }

/-- Source: `EditorInfoStatusBar::updateOverType`. -/
def updateOverType (bar : EditorInfoStatusBar) (editor : ScintillaNext) : EditorInfoStatusBar :=
  let overtype := editor.overtype
  if overtype then { bar with overType := tr "OVR" }
  else { bar with overType := tr "INS" }

/-- Source: `EditorInfoStatusBar::refresh`. -/
def refresh (loc : QLocale) (bar : EditorInfoStatusBar) (editor : ScintillaNext) :
    EditorInfoStatusBar :=
  let bar := updateDocumentSize loc bar editor
  let bar := updateSelectionInfo loc bar editor
  let bar := updateLanguage bar editor
  let bar := updateEol bar editor
  let bar := updateEncoding bar editor
  updateOverType bar editor

/-- Source: `EditorInfoStatusBar::editorUpdated`; `editor` is the sender of
the notification. -/
def editorUpdated (loc : QLocale) (bar : EditorInfoStatusBar) (editor : ScintillaNext)
    (updated : Update) : EditorInfoStatusBar :=
  let bar := if FlagSet updated Update.Content then updateDocumentSize loc bar editor else bar
  if FlagSet updated Update.Content || FlagSet updated Update.Selection then
    updateSelectionInfo loc bar editor
  else bar

/-- Source: the handler the constructor connects to the `clicked` signal of
the overType label; `editor` is the window's current editor. The handler
changes the editor and the status bar. -/
def overTypeClicked (bar : EditorInfoStatusBar) (editor : ScintillaNext) :
    EditorInfoStatusBar × ScintillaNext :=
  let editor := editor.editToggleOvertype
  (updateOverType bar editor, editor)

/-- Two status bars show the same text in all six labels. -/
def SameText (a b : EditorInfoStatusBar) : Prop :=
  a.docSize = b.docSize ∧ a.docPos = b.docPos ∧ a.docType = b.docType ∧
  a.eolFormat = b.eolFormat ∧ a.unicodeType = b.unicodeType ∧ a.overType = b.overType

end EditorInfoStatusBar

/-! ## Signal connections between editors and the status bar -/

/-- Editors are told apart by an identifier (the `ScintillaNext *` pointer). -/
abbrev EditorId := Nat

/-- The two notifications of an editor the status bar subscribes to. -/
inductive Signal where
  | updateUi
  | lexerChanged
  deriving DecidableEq, Repr

/-- A notification as an editor emits it; updateUi carries the update flags. -/
inductive Emission where
  | updateUi (updated : Update)
  | lexerChanged
  deriving DecidableEq, Repr

/-- The signal an emission belongs to. -/
def Emission.signal : Emission → Signal
  | .updateUi _ => .updateUi
  | .lexerChanged => .lexerChanged

/-- What `connectToEditor` connects a signal to: the member function
`editorUpdated`, or the lambda calling `updateLanguage(editor)` with the editor
it captured. -/
inductive Slot where
  | editorUpdated
  | updateLanguage (editor : EditorId)
  deriving DecidableEq, Repr

/-- A live Qt connection from an editor's signal to the status bar. -/
structure Connection where
  handle : Nat
  sender : EditorId
  signal : Signal
  slot : Slot
  deriving DecidableEq, Repr

/-- The main window as far as the status bar is concerned: the default locale,
the editors and the current one, the status bar, the live connections to the
status bar, and the next unused connection handle. -/
structure Window where
  locale : QLocale
  editors : EditorId → ScintillaNext
  currentEditor : EditorId
  bar : EditorInfoStatusBar
  connections : List Connection
  nextHandle : Nat

namespace Window

/-- Qt library behaviour: `QObject::disconnect(handle)` removes the connection
the handle stands for; with an invalid handle, or one whose connection is
gone, nothing happens. -/
def disconnect (h : Option Nat) (cs : List Connection) : List Connection :=
  match h with
  | none => cs
  | some i => cs.filter (fun c => c.handle != i)

/-- The window after the status bar's constructor: nothing is connected. -/
def init (loc : QLocale) (editors : EditorId → ScintillaNext) (current : EditorId) : Window :=
  { locale := loc, editors := editors, currentEditor := current,
    bar := EditorInfoStatusBar.new, connections := [], nextHandle := 0 }

/-- Source: `EditorInfoStatusBar::connectToEditor`, the slot of the window's
editorActivated signal. -/
def connectToEditor (w : Window) (editor : EditorId) : Window :=
  let cs := disconnect w.bar.editorUiUpdated w.connections
  let cs := disconnect w.bar.documentLexerChanged cs
  let h1 := w.nextHandle
  let cs := cs ++ [{ handle := h1, sender := editor, signal := .updateUi,
                     slot := .editorUpdated }]
  let h2 := w.nextHandle + 1
  let cs := cs ++ [{ handle := h2, sender := editor, signal := .lexerChanged,
                     slot := .updateLanguage editor }]
  let bar := { w.bar with editorUiUpdated := some h1, documentLexerChanged := some h2 }
  { w with
    connections := cs
    nextHandle := w.nextHandle + 2
    bar := EditorInfoStatusBar.refresh w.locale bar (w.editors editor) }

/-- One slot invocation: `editorUpdated` works on the sender of the
notification, the lambda on the editor it captured. -/
def runSlot (w : Window) (sender : EditorId) (e : Emission) (bar : EditorInfoStatusBar) :
    Slot → EditorInfoStatusBar
  | .editorUpdated =>
    match e with
    | .updateUi updated => EditorInfoStatusBar.editorUpdated w.locale bar (w.editors sender) updated
    | .lexerChanged => bar
  | .updateLanguage editor => EditorInfoStatusBar.updateLanguage bar (w.editors editor)

/-- Editor `sender` emits a notification: the slot of every live connection of
that editor and signal runs, in connection order. -/
def emit (w : Window) (sender : EditorId) (e : Emission) : Window :=
  { w with
    bar := (w.connections.filter (fun c => c.sender = sender ∧ c.signal = e.signal)).foldl
      (fun bar c => runSlot w sender e bar c.slot) w.bar }

/-- The overType label is clicked: the handler runs on the current editor. -/
def clickOverType (w : Window) : Window :=
  let r := EditorInfoStatusBar.overTypeClicked w.bar (w.editors w.currentEditor)
  { w with bar := r.1, editors := Function.update w.editors w.currentEditor r.2 }

/-- The user edits: the editors and the current editor change, the status bar
and its connections do not. -/
def userEdit (w : Window) (editors : EditorId → ScintillaNext) (current : EditorId) : Window :=
  { w with editors := editors, currentEditor := current }

/-- The states a window can be in: it starts unconnected, and then editors are
activated, emit notifications, the overType label is clicked, and the user
edits. -/
inductive Reachable : Window → Prop where
  | init (loc : QLocale) (editors : EditorId → ScintillaNext) (current : EditorId) :
      Reachable (init loc editors current)
  | connectToEditor (w : Window) (editor : EditorId) :
      Reachable w → Reachable (connectToEditor w editor)
  | emit (w : Window) (sender : EditorId) (e : Emission) :
      Reachable w → Reachable (emit w sender e)
  | clickOverType (w : Window) : Reachable w → Reachable (clickOverType w)
  | userEdit (w : Window) (editors : EditorId → ScintillaNext) (current : EditorId) :
      Reachable w → Reachable (userEdit w editors current)

/-- The connection table agrees with the status bar's handles: either nothing
is connected, or exactly the two connections the handles stand for are live,
both from one editor; handles in use lie below the next unused one. -/
def Consistent (w : Window) : Prop :=
  (∀ h, w.bar.editorUiUpdated = some h → h < w.nextHandle) ∧
  (∀ h, w.bar.documentLexerChanged = some h → h < w.nextHandle) ∧
  (w.connections = [] ∨
    ∃ h1 h2 editor, h1 ≠ h2 ∧
      w.bar.editorUiUpdated = some h1 ∧ w.bar.documentLexerChanged = some h2 ∧
      w.connections =
        [{ handle := h1, sender := editor, signal := .updateUi, slot := .editorUpdated },
         { handle := h2, sender := editor, signal := .lexerChanged,
           slot := .updateLanguage editor }])

end Window

/-! ## Sample inputs -/

/-- A locale that groups with a comma. -/
def enUS : QLocale := ⟨",", by decide⟩

/-- A locale that groups with a period. -/
def deDE : QLocale := ⟨".", by decide⟩

/-- An editor with one selection of 40 characters from line 2 to line 4 and
the cursor at line 2, column 3. -/
def sampleEditor : ScintillaNext :=
  { length := 120, lineCount := 5, selections := 1, selectionStart := 10, selectionEnd := 50,
    currentPos := 10, lineFromPosition := fun p => if p = 10 then 2 else 4,
    column := fun _ => 3, countCharacters := fun a b => b - a, languageName := "C++",
    eOLMode := SC_EOL_CRLF, codePage := SC_CP_UTF8, overtype := false }

/-- An editor with two selections and the cursor at line 7, column 2. -/
def multiSelectionEditor : ScintillaNext :=
  { sampleEditor with
    selections := 2, currentPos := 99, lineFromPosition := fun _ => 7, column := fun _ => 2 }

/-- An editor whose EOL mode is none of CR, CRLF and LF. -/
def oddEolEditor : ScintillaNext := { sampleEditor with eOLMode := 3 }

/-- An editor with Unix line ends. -/
def unixEditor : ScintillaNext := { sampleEditor with eOLMode := SC_EOL_LF }

/-- An editor with a Windows-1252 document in overtype mode. -/
def overtypeEditor : ScintillaNext := { sampleEditor with codePage := 1252, overtype := true }

/-- The sample editor with the cursor beyond the range of a C++ `int`, at
position 2^32 + 10. -/
def farCursorEditor : ScintillaNext := { sampleEditor with currentPos := 4294967306 }

/-- A window with one document, just opened and activated. -/
def freshWindow : Window :=
  Window.connectToEditor (Window.init enUS (fun _ => sampleEditor) 0) 0

/-- The window `freshWindow` after the user switched the editor to overtype
mode from the keyboard and the editor sent its updateUi notification. -/
def keyToggledWindow : Window :=
  Window.emit (Window.userEdit freshWindow (fun _ => overtypeEditor) 0) 0
    (.updateUi Update.Selection)

/-! ## Lemmas on the Qt string functions -/

theorem digitChar_ne_percent (d : Nat) (h : d < 10) : Nat.digitChar d ≠ '%' := by
  interval_cases d <;> decide

theorem toDigitsCore_ne_percent (fuel : Nat) :
    ∀ (n : Nat) (ds : List Char), '%' ∉ ds → '%' ∉ Nat.toDigitsCore 10 fuel n ds := by
  induction fuel with
  | zero => intro n ds h; simpa [Nat.toDigitsCore] using h
  | succ f ih =>
    intro n ds h
    have hd : '%' ∉ Nat.digitChar (n % 10) :: ds := by
      intro hm
      rcases List.mem_cons.mp hm with h1 | h1
      · exact digitChar_ne_percent (n % 10) (Nat.mod_lt _ (by decide)) h1.symm
      · exact h h1
    unfold Nat.toDigitsCore
    simp only []
    split
    · exact hd
    · exact ih _ _ hd

theorem groupRev_mem (sepRev : List Char) (x : Char) :
    ∀ (ds : List Char) (k : Nat), x ∈ groupRev sepRev k ds → x ∈ sepRev ∨ x ∈ ds := by
  intro ds
  induction ds with
  | nil => intro k h; simp [groupRev] at h
  | cons c rest ih =>
    intro k h
    unfold groupRev at h
    split at h
    · rcases List.mem_append.mp h with h1 | h1
      · exact Or.inl h1
      · rcases List.mem_cons.mp h1 with h2 | h2
        · exact Or.inr (h2 ▸ List.mem_cons_self _ _)
        · rcases ih _ h2 with h3 | h3
          · exact Or.inl h3
          · exact Or.inr (List.mem_cons_of_mem _ h3)
    · rcases List.mem_cons.mp h with h2 | h2
      · exact Or.inr (h2 ▸ List.mem_cons_self _ _)
      · rcases ih _ h2 with h3 | h3
        · exact Or.inl h3
        · exact Or.inr (List.mem_cons_of_mem _ h3)

/-- The localized text of a number has no percent sign. -/
theorem toString_no_percent (loc : QLocale) (n : Int) : '%' ∉ (loc.toString n).data := by
  intro h
  simp only [QLocale.toString] at h
  rcases List.mem_append.mp h with h1 | h1
  · split at h1
    · simp at h1
    · simp at h1
  · simp only [groupDigits, List.mem_reverse] at h1
    rcases groupRev_mem _ _ _ _ h1 with h2 | h2
    · exact loc.groupSeparator_no_percent (List.mem_reverse.mp h2)
    · exact toDigitsCore_ne_percent _ _ _ (List.not_mem_nil _) (List.mem_reverse.mp h2)

/-- Grouping in a comma locale and in a period locale. -/
theorem toString_grouping :
    enUS.toString 1234567 = "1,234,567" ∧ enUS.toString 999 = "999" ∧
    enUS.toString 1000 = "1,000" ∧ deDE.toString (-1234) = "-1.234" ∧
    enUS.toString 0 = "0" := by
  decide

/-- Markers are filled lowest number first, `%L` markers with the grouped
text, plain markers with the plain text; a lone percent sign is kept. -/
theorem arg_sample :
    ((tr "%2 and %L1 %1 %%3").arg enUS 1200).arg enUS 5 = "5 and 1,200 1200 %%3" ∧
    (tr "100%").arg enUS 7 = "100%" := by
  decide

theorem scanArg_idle_append (xs ys : List Char) (h : '%' ∉ xs) :
    scanArg .idle (xs ++ ys) = xs.map ArgToken.chr ++ scanArg .idle ys := by
  induction xs with
  | nil => rfl
  | cons c cs ih =>
    have hc : c ≠ '%' := fun e => h (e ▸ List.mem_cons_self _ _)
    have hcs : '%' ∉ cs := fun e => h (List.mem_cons_of_mem _ e)
    simp [scanArg, hc, ih hcs]

theorem minEscape_chr_append (xs : List Char) (ts : List ArgToken) :
    minEscape (xs.map ArgToken.chr ++ ts) = minEscape ts := by
  induction xs with
  | nil => rfl
  | cons c cs ih => simpa [minEscape] using ih

theorem replaceEscapes_chr_append (m : Nat) (p l xs : List Char) (ts : List ArgToken) :
    replaceEscapes m p l (xs.map ArgToken.chr ++ ts) = xs ++ replaceEscapes m p l ts := by
  induction xs with
  | nil => rfl
  | cons c cs ih => simpa [replaceEscapes] using ih

theorem replaceEscapes_chr (m : Nat) (p l xs : List Char) :
    replaceEscapes m p l (xs.map ArgToken.chr) = xs := by
  have := replaceEscapes_chr_append m p l xs []
  simpa [replaceEscapes] using this

/-- Filling the last marker `%L2` of a string whose other characters are
ordinary: the marker is replaced by the localized number. -/
theorem arg_last_marker (loc : QLocale) (b : Int) (P Q : List Char) (hP : '%' ∉ P)
    (hQ : scanArg .idle ('%' :: 'L' :: '2' :: Q)
      = ArgToken.esc 2 true ['%', 'L', '2'] :: Q.map ArgToken.chr) :
    QString.arg (String.mk (P ++ '%' :: 'L' :: '2' :: Q)) loc b
      = String.mk (P ++ (loc.toString b).data ++ Q) := by
  have hs : scanArg .idle (P ++ '%' :: 'L' :: '2' :: Q)
      = P.map ArgToken.chr ++ (ArgToken.esc 2 true ['%', 'L', '2'] :: Q.map ArgToken.chr) := by
    rw [scanArg_idle_append _ _ hP, hQ]
  have hm : minEscape (P.map ArgToken.chr ++
      (ArgToken.esc 2 true ['%', 'L', '2'] :: Q.map ArgToken.chr)) = some 2 := by
    rw [minEscape_chr_append]
    have := minEscape_chr_append Q []
    simp only [List.append_nil] at this
    simp [minEscape, this]
  simp only [QString.arg, hs, hm]
  rw [replaceEscapes_chr_append]
  simp [replaceEscapes, replaceEscapes_chr]

/-- The size text: both markers of "Length: %L1    Lines: %L2" filled. -/
theorem sizeText_eq (loc : QLocale) (a b : Int) :
    ((tr "Length: %L1    Lines: %L2").arg loc a).arg loc b
      = "Length: " ++ loc.toString a ++ "    Lines: " ++ loc.toString b := by
  have h1 : (tr "Length: %L1    Lines: %L2").arg loc a
      = String.mk (("Length: ".data ++ (loc.toString a).data ++ "    Lines: ".data)
          ++ '%' :: 'L' :: '2' :: []) := by
    have : (tr "Length: %L1    Lines: %L2").arg loc a
        = String.mk ("Length: ".data ++ ((loc.toString a).data ++ "    Lines: %L2".data)) := rfl
    rw [this]
    congr 1
    simp
  rw [h1, arg_last_marker loc b _ [] _ (by decide)]
  · apply String.ext
    simp [String.data_append]
  · intro h
    rcases List.mem_append.mp h with h2 | h2
    · rcases List.mem_append.mp h2 with h3 | h3
      · revert h3; decide
      · exact toString_no_percent loc a h3
    · revert h2; decide

/-- The selection text: both markers of "Sel: %L1 | %L2" filled. -/
theorem selText_eq (loc : QLocale) (a b : Int) :
    ((tr "Sel: %L1 | %L2").arg loc a).arg loc b
      = "Sel: " ++ loc.toString a ++ " | " ++ loc.toString b := by
  have h1 : (tr "Sel: %L1 | %L2").arg loc a
      = String.mk (("Sel: ".data ++ (loc.toString a).data ++ " | ".data)
          ++ '%' :: 'L' :: '2' :: []) := by
    have : (tr "Sel: %L1 | %L2").arg loc a
        = String.mk ("Sel: ".data ++ ((loc.toString a).data ++ " | %L2".data)) := rfl
    rw [this]
    congr 1
    simp
  rw [h1, arg_last_marker loc b _ [] _ (by decide)]
  · apply String.ext
    simp [String.data_append]
  · intro h
    rcases List.mem_append.mp h with h2 | h2
    · rcases List.mem_append.mp h2 with h3 | h3
      · revert h3; decide
      · exact toString_no_percent loc a h3
    · revert h2; decide

/-- The position text: both markers of "Ln: %L1    Col: %L2    " filled. -/
theorem posText_eq (loc : QLocale) (a b : Int) :
    ((tr "Ln: %L1    Col: %L2    ").arg loc a).arg loc b
      = "Ln: " ++ loc.toString a ++ "    Col: " ++ loc.toString b ++ "    " := by
  have h1 : (tr "Ln: %L1    Col: %L2    ").arg loc a
      = String.mk (("Ln: ".data ++ (loc.toString a).data ++ "    Col: ".data)
          ++ '%' :: 'L' :: '2' :: "    ".data) := by
    have : (tr "Ln: %L1    Col: %L2    ").arg loc a
        = String.mk ("Ln: ".data ++ ((loc.toString a).data ++ "    Col: %L2    ".data)) := rfl
    rw [this]
    congr 1
    simp
  rw [h1, arg_last_marker loc b _ "    ".data _ (by decide)]
  · apply String.ext
    simp [String.data_append]
  · intro h
    rcases List.mem_append.mp h with h2 | h2
    · rcases List.mem_append.mp h2 with h3 | h3
      · revert h3; decide
      · exact toString_no_percent loc a h3
    · revert h2; decide

/-! ## What each update function leaves alone -/

namespace EditorInfoStatusBar

theorem updateEol_handles (bar : EditorInfoStatusBar) (editor : ScintillaNext) :
    (updateEol bar editor).editorUiUpdated = bar.editorUiUpdated ∧
    (updateEol bar editor).documentLexerChanged = bar.documentLexerChanged := by
  unfold updateEol
  split_ifs <;> exact ⟨rfl, rfl⟩

theorem updateEncoding_handles (bar : EditorInfoStatusBar) (editor : ScintillaNext) :
    (updateEncoding bar editor).editorUiUpdated = bar.editorUiUpdated ∧
    (updateEncoding bar editor).documentLexerChanged = bar.documentLexerChanged := by
  unfold updateEncoding
  split_ifs <;> exact ⟨rfl, rfl⟩

theorem updateOverType_handles (bar : EditorInfoStatusBar) (editor : ScintillaNext) :
    (updateOverType bar editor).editorUiUpdated = bar.editorUiUpdated ∧
    (updateOverType bar editor).documentLexerChanged = bar.documentLexerChanged := by
  unfold updateOverType
  simp only []
  split_ifs <;> exact ⟨rfl, rfl⟩

theorem refresh_handles (loc : QLocale) (bar : EditorInfoStatusBar) (editor : ScintillaNext) :
    (refresh loc bar editor).editorUiUpdated = bar.editorUiUpdated ∧
    (refresh loc bar editor).documentLexerChanged = bar.documentLexerChanged := by
  unfold refresh
  simp only []
  rw [(updateOverType_handles _ _).1, (updateOverType_handles _ _).2,
    (updateEncoding_handles _ _).1, (updateEncoding_handles _ _).2,
    (updateEol_handles _ _).1, (updateEol_handles _ _).2]
  exact ⟨rfl, rfl⟩

theorem editorUpdated_handles (loc : QLocale) (bar : EditorInfoStatusBar)
    (editor : ScintillaNext) (updated : Update) :
    (editorUpdated loc bar editor updated).editorUiUpdated = bar.editorUiUpdated ∧
    (editorUpdated loc bar editor updated).documentLexerChanged = bar.documentLexerChanged := by
  unfold editorUpdated
  simp only []
  split_ifs <;> exact ⟨rfl, rfl⟩

end EditorInfoStatusBar

namespace Window

theorem runSlot_handles (w : Window) (sender : EditorId) (e : Emission)
    (bar : EditorInfoStatusBar) (s : Slot) :
    (runSlot w sender e bar s).editorUiUpdated = bar.editorUiUpdated ∧
    (runSlot w sender e bar s).documentLexerChanged = bar.documentLexerChanged := by
  cases s with
  | editorUpdated =>
    cases e with
    | updateUi u => exact EditorInfoStatusBar.editorUpdated_handles _ _ _ _
    | lexerChanged => exact ⟨rfl, rfl⟩
  | updateLanguage ed => exact ⟨rfl, rfl⟩

theorem foldl_runSlot_handles (w : Window) (sender : EditorId) (e : Emission)
    (cs : List Connection) :
    ∀ bar : EditorInfoStatusBar,
    (cs.foldl (fun bar c => runSlot w sender e bar c.slot) bar).editorUiUpdated
      = bar.editorUiUpdated ∧
    (cs.foldl (fun bar c => runSlot w sender e bar c.slot) bar).documentLexerChanged
      = bar.documentLexerChanged := by
  induction cs with
  | nil => intro bar; exact ⟨rfl, rfl⟩
  | cons c cs ih =>
    intro bar
    simp only [List.foldl_cons]
    rw [(ih _).1, (ih _).2]
    exact runSlot_handles w sender e bar c.slot

/-- From a consistent window, `connectToEditor` leaves exactly the two new
connections, both from the editor it was called with. -/
theorem connectToEditor_connections (w : Window) (hw : Consistent w) (editor : EditorId) :
    (connectToEditor w editor).connections =
      [{ handle := w.nextHandle, sender := editor, signal := .updateUi,
         slot := .editorUpdated },
       { handle := w.nextHandle + 1, sender := editor, signal := .lexerChanged,
         slot := .updateLanguage editor }] := by
  obtain ⟨_, _, hc⟩ := hw
  have hd : disconnect w.bar.documentLexerChanged
      (disconnect w.bar.editorUiUpdated w.connections) = [] := by
    rcases hc with hc | ⟨h1, h2, ed, hne, e1, e2, hc⟩
    · rw [hc]
      cases w.bar.editorUiUpdated <;> cases w.bar.documentLexerChanged <;> simp [disconnect]
    · rw [hc, e1, e2]
      simp [disconnect, hne, hne.symm]
  simp only [connectToEditor, hd]
  rfl

theorem connectToEditor_handles (w : Window) (editor : EditorId) :
    (connectToEditor w editor).bar.editorUiUpdated = some w.nextHandle ∧
    (connectToEditor w editor).bar.documentLexerChanged = some (w.nextHandle + 1) ∧
    (connectToEditor w editor).nextHandle = w.nextHandle + 2 := by
  refine ⟨?_, ?_, rfl⟩
  · simp only [connectToEditor]
    rw [(EditorInfoStatusBar.refresh_handles _ _ _).1]
  · simp only [connectToEditor]
    rw [(EditorInfoStatusBar.refresh_handles _ _ _).2]

theorem consistent_connectToEditor (w : Window) (hw : Consistent w) (editor : EditorId) :
    Consistent (connectToEditor w editor) := by
  obtain ⟨a, b, c⟩ := connectToEditor_handles w editor
  refine ⟨?_, ?_, Or.inr ⟨w.nextHandle, w.nextHandle + 1, editor, by omega, a, b,
    connectToEditor_connections w hw editor⟩⟩
  · intro h hh
    rw [a] at hh
    rw [c]
    injection hh with hh
    omega
  · intro h hh
    rw [b] at hh
    rw [c]
    injection hh with hh
    omega

/-- Every reachable window is consistent. -/
theorem reachable_consistent (w : Window) (hw : Reachable w) : Consistent w := by
  induction hw with
  | init loc editors current =>
    refine ⟨?_, ?_, Or.inl rfl⟩ <;> intro h hh <;> cases hh
  | connectToEditor w editor _ ih => exact consistent_connectToEditor w ih editor
  | emit w sender e _ ih =>
    obtain ⟨h1, h2⟩ := foldl_runSlot_handles w sender e
      (w.connections.filter (fun c => c.sender = sender ∧ c.signal = e.signal)) w.bar
    unfold Consistent
    simp only [Window.emit]
    rw [h1, h2]
    exact ih
  | clickOverType w _ ih =>
    obtain ⟨h1, h2⟩ := EditorInfoStatusBar.updateOverType_handles w.bar
      (w.editors w.currentEditor).editToggleOvertype
    unfold Consistent
    simp only [Window.clickOverType, EditorInfoStatusBar.overTypeClicked]
    rw [h1, h2]
    exact ih
  | userEdit w editors current _ ih => exact ih

end Window

/-! ## The claims -/

namespace EditorInfoStatusBar

theorem toString_three (loc : QLocale) : loc.toString 3 = "3" := rfl

theorem toString_four (loc : QLocale) : loc.toString 4 = "4" := rfl

theorem toString_five (loc : QLocale) : loc.toString 5 = "5" := rfl

theorem toString_forty (loc : QLocale) : loc.toString 40 = "40" := rfl

theorem toString_onehundredtwenty (loc : QLocale) : loc.toString 120 = "120" := rfl

theorem toCInt_of_inRange (x : Int) (h : InIntRange x) : toCInt x = x := by
  obtain ⟨h1, h2⟩ := h
  unfold toCInt
  omega

/-- The position text for an editor with at most one selection, in terms of
the `int` locals `pos`, `start` and `end`. -/
theorem docPos_single (loc : QLocale) (bar : EditorInfoStatusBar) (editor : ScintillaNext)
    (h : editor.selections ≤ 1) :
    (updateSelectionInfo loc bar editor).docPos
      = "Ln: " ++ loc.toString (editor.lineFromPosition (toCInt editor.currentPos) + 1)
        ++ "    Col: " ++ loc.toString (editor.column (toCInt editor.currentPos) + 1)
        ++ "    Sel: "
        ++ loc.toString (editor.countCharacters (toCInt editor.selectionStart)
            (toCInt editor.selectionEnd))
        ++ " | " ++ loc.toString (selectionLines editor) := by
  have hs : ¬ editor.selections > 1 := by omega
  have e : ("    Sel: " : String) = "    " ++ "Sel: " := rfl
  simp only [updateSelectionInfo, selectionText, hs, if_false, posText_eq, selText_eq]
  rw [e]
  simp only [String.append_assoc]

/-- The position text for an editor with several selections, in terms of the
`int` local `pos`. -/
theorem docPos_multiple (loc : QLocale) (bar : EditorInfoStatusBar) (editor : ScintillaNext)
    (h : editor.selections > 1) :
    (updateSelectionInfo loc bar editor).docPos
      = "Ln: " ++ loc.toString (editor.lineFromPosition (toCInt editor.currentPos) + 1)
        ++ "    Col: " ++ loc.toString (editor.column (toCInt editor.currentPos) + 1)
        ++ "    " ++ "Sel: N/A" := by
  simp only [updateSelectionInfo, selectionText, h, if_true, posText_eq]
  rfl

/-- C1, as the code behaves. For every editor state whose selection count is
greater than 1 and whose current position lies in the range of a C++ `int`,
the text `updateSelectionInfo` sets on the position field is the line and
column of the cursor followed by "Sel: N/A": "Ln: L    Col: C    Sel: N/A"
with L = lineFromPosition(currentPos)+1 and C = column(currentPos)+1 in the
locale's grouped decimal. -/
theorem updateSelectionInfo_multiple (loc : QLocale) (bar : EditorInfoStatusBar)
    (editor : ScintillaNext) (h : editor.selections > 1)
    (hp : InIntRange editor.currentPos) :
    (updateSelectionInfo loc bar editor).docPos
      = "Ln: " ++ loc.toString (editor.lineFromPosition editor.currentPos + 1)
        ++ "    Col: " ++ loc.toString (editor.column editor.currentPos + 1)
        ++ "    " ++ "Sel: N/A" := by
  rw [docPos_multiple loc bar editor h, toCInt_of_inRange _ hp]

/-- Witness of `updateSelectionInfo_multiple`: two selections, cursor at
position 99 on line 7, column 2. -/
theorem updateSelectionInfo_multiple_witness :
    multiSelectionEditor.selections > 1 ∧ InIntRange multiSelectionEditor.currentPos ∧
    (updateSelectionInfo enUS new multiSelectionEditor).docPos
      = "Ln: " ++ enUS.toString (multiSelectionEditor.lineFromPosition
            multiSelectionEditor.currentPos + 1)
        ++ "    Col: " ++ enUS.toString (multiSelectionEditor.column
            multiSelectionEditor.currentPos + 1)
        ++ "    " ++ "Sel: N/A" :=
  ⟨by decide, by decide,
    updateSelectionInfo_multiple enUS new multiSelectionEditor (by decide) (by decide)⟩

/-- C1 as stated fails: with two selections and the cursor at line 7, column
2, the position field reads "Ln: 8    Col: 3    Sel: N/A", not "Sel: N/A". -/
theorem updateSelectionInfo_multiple_counterexample :
    multiSelectionEditor.selections > 1 ∧
    (updateSelectionInfo enUS new multiSelectionEditor).docPos = "Ln: 8    Col: 3    Sel: N/A" ∧
    (updateSelectionInfo enUS new multiSelectionEditor).docPos ≠ "Sel: N/A" := by
  decide

/-- C5, as the code behaves. For every editor state with at most one selection
whose current position, selection start and selection end lie in the range of
a C++ `int`, the position field text set by `updateSelectionInfo` is
"Ln: L    Col: C    Sel: N | S" with L = lineFromPosition(currentPos)+1,
C = column(currentPos)+1, N = countCharacters(start, end) and S the selection
line span the code computes, each in the locale's grouped decimal; with the
cursor at line 2, column 3, a selection from line 2 to line 4 and 40
characters selected the text is "Ln: 3    Col: 4    Sel: 40 | 3". -/
theorem updateSelectionInfo_single (loc : QLocale) (bar : EditorInfoStatusBar)
    (editor : ScintillaNext) (h : editor.selections ≤ 1)
    (hp : InIntRange editor.currentPos) (hs : InIntRange editor.selectionStart)
    (he : InIntRange editor.selectionEnd) :
    (updateSelectionInfo loc bar editor).docPos
      = "Ln: " ++ loc.toString (editor.lineFromPosition editor.currentPos + 1)
        ++ "    Col: " ++ loc.toString (editor.column editor.currentPos + 1)
        ++ "    Sel: "
        ++ loc.toString (editor.countCharacters editor.selectionStart editor.selectionEnd)
        ++ " | " ++ loc.toString (selectionLines editor) ∧
    (editor.lineFromPosition editor.currentPos = 2 → editor.column editor.currentPos = 3 →
      editor.lineFromPosition editor.selectionStart = 2 →
      editor.lineFromPosition editor.selectionEnd = 4 →
      editor.selectionStart < editor.selectionEnd →
      editor.countCharacters editor.selectionStart editor.selectionEnd = 40 →
      (updateSelectionInfo loc bar editor).docPos = "Ln: 3    Col: 4    Sel: 40 | 3") := by
  have hd := docPos_single loc bar editor h
  rw [toCInt_of_inRange _ hp, toCInt_of_inRange _ hs, toCInt_of_inRange _ he] at hd
  refine ⟨hd, ?_⟩
  intro h1 h2 h3 h4 h5 h6
  have hl : selectionLines editor = 3 := by
    simp only [selectionLines, toCInt_of_inRange _ hs, toCInt_of_inRange _ he, h3, h4]
    have : editor.selectionEnd > editor.selectionStart := h5
    simp only [this, if_true]
    decide
  rw [hd, h1, h2, h6, hl]
  simp only [show (2 : Int) + 1 = 3 from rfl, show (3 : Int) + 1 = 4 from rfl,
    toString_three, toString_four, toString_forty]
  rfl

/-- Witness of `updateSelectionInfo_single`: the editor of the example, in a
locale grouping with a period. -/
theorem updateSelectionInfo_single_witness :
    sampleEditor.selections ≤ 1 ∧ InIntRange sampleEditor.currentPos ∧
    InIntRange sampleEditor.selectionStart ∧ InIntRange sampleEditor.selectionEnd ∧
    (updateSelectionInfo deDE new sampleEditor).docPos = "Ln: 3    Col: 4    Sel: 40 | 3" :=
  ⟨by decide, by decide, by decide, by decide,
    (updateSelectionInfo_single deDE new sampleEditor (by decide) (by decide) (by decide)
      (by decide)).2
      (by decide) (by decide) (by decide) (by decide) (by decide) (by decide)⟩

/-- C5 as stated fails: with the cursor at position 2^32 + 10, which the
editor places on line 4, `pos` is stored as 10, which lies on line 2, and the
position field reads "Ln: 3 ..." where lineFromPosition(currentPos)+1 is 5. -/
theorem updateSelectionInfo_single_counterexample :
    farCursorEditor.selections ≤ 1 ∧
    farCursorEditor.lineFromPosition farCursorEditor.currentPos + 1 = 5 ∧
    (updateSelectionInfo enUS new farCursorEditor).docPos = "Ln: 3    Col: 4    Sel: 40 | 3" ∧
    (updateSelectionInfo enUS new farCursorEditor).docPos
      ≠ "Ln: " ++ enUS.toString (farCursorEditor.lineFromPosition farCursorEditor.currentPos + 1)
        ++ "    Col: "
        ++ enUS.toString (farCursorEditor.column farCursorEditor.currentPos + 1)
        ++ "    Sel: "
        ++ enUS.toString (farCursorEditor.countCharacters farCursorEditor.selectionStart
            farCursorEditor.selectionEnd)
        ++ " | " ++ enUS.toString (selectionLines farCursorEditor) := by
  decide

/-- C10. For every document length n and line count k, `updateDocumentSize`
sets the size field to "Length: " n, four spaces, "Lines: " k, the numbers in
the locale's grouped decimal; length 120 and line count 5 give
"Length: 120    Lines: 5". -/
theorem updateDocumentSize_text (loc : QLocale) (bar : EditorInfoStatusBar)
    (editor : ScintillaNext) :
    (updateDocumentSize loc bar editor).docSize
      = "Length: " ++ loc.toString editor.length ++ "    " ++ "Lines: "
        ++ loc.toString editor.lineCount ∧
    (editor.length = 120 → editor.lineCount = 5 →
      (updateDocumentSize loc bar editor).docSize = "Length: 120    Lines: 5") := by
  have e : (updateDocumentSize loc bar editor).docSize
      = "Length: " ++ loc.toString editor.length ++ "    Lines: "
        ++ loc.toString editor.lineCount := by
    simp only [updateDocumentSize, sizeText_eq]
  refine ⟨?_, ?_⟩
  · rw [e]
    have e2 : ("    Lines: " : String) = "    " ++ "Lines: " := rfl
    rw [e2]
    simp only [String.append_assoc]
  · intro h1 h2
    rw [e, h1, h2, toString_onehundredtwenty, toString_five]
    rfl

/-- Witness of `updateDocumentSize_text`: a document of 120 characters in 5
lines. -/
theorem updateDocumentSize_text_witness :
    sampleEditor.length = 120 ∧ sampleEditor.lineCount = 5 ∧
    (updateDocumentSize enUS new sampleEditor).docSize = "Length: 120    Lines: 5" :=
  ⟨by decide, by decide,
    (updateDocumentSize_text enUS new sampleEditor).2 (by decide) (by decide)⟩

/-- C6. For every update-flag set, panel and editor state, `editorUpdated`
recomputes the size field exactly when the Content flag is set and the
position/selection field exactly when the Content or the Selection flag is
set; the language, EOL, encoding and insert-mode fields keep their text, and
with neither flag set the status bar does not change at all. -/
theorem editorUpdated_frame (loc : QLocale) (bar : EditorInfoStatusBar)
    (editor : ScintillaNext) (updated : Update) :
    (editorUpdated loc bar editor updated).docSize
      = (if FlagSet updated Update.Content then (updateDocumentSize loc bar editor).docSize
         else bar.docSize) ∧
    (editorUpdated loc bar editor updated).docPos
      = (if FlagSet updated Update.Content || FlagSet updated Update.Selection
         then (updateSelectionInfo loc bar editor).docPos else bar.docPos) ∧
    (editorUpdated loc bar editor updated).docType = bar.docType ∧
    (editorUpdated loc bar editor updated).eolFormat = bar.eolFormat ∧
    (editorUpdated loc bar editor updated).unicodeType = bar.unicodeType ∧
    (editorUpdated loc bar editor updated).overType = bar.overType ∧
    (FlagSet updated Update.Content = false → FlagSet updated Update.Selection = false →
      editorUpdated loc bar editor updated = bar) := by
  unfold editorUpdated
  simp only []
  cases hc : FlagSet updated Update.Content <;> cases hs : FlagSet updated Update.Selection <;>
    simp [updateDocumentSize, updateSelectionInfo]

/-- Witness of `editorUpdated_frame`: a scroll notification (flag 4) changes
nothing. -/
theorem editorUpdated_frame_witness :
    FlagSet 4 Update.Content = false ∧ FlagSet 4 Update.Selection = false ∧
    editorUpdated enUS new sampleEditor 4 = new :=
  ⟨by decide, by decide,
    (editorUpdated_frame enUS new sampleEditor 4).2.2.2.2.2.2 (by decide) (by decide)⟩

/-- C8. For every EOL mode value and prior panel state, `updateEol` sets the
EOL field to "Macintosh (CR)" for CR, "Windows (CR LF)" for CRLF and
"Unix (LF)" for LF; for every other value the EOL field keeps its text; no
other field changes in any case. -/
theorem updateEol_text (bar : EditorInfoStatusBar) (editor : ScintillaNext) :
    (editor.eOLMode = SC_EOL_CR → (updateEol bar editor).eolFormat = "Macintosh (CR)") ∧
    (editor.eOLMode = SC_EOL_CRLF → (updateEol bar editor).eolFormat = "Windows (CR LF)") ∧
    (editor.eOLMode = SC_EOL_LF → (updateEol bar editor).eolFormat = "Unix (LF)") ∧
    (editor.eOLMode ≠ SC_EOL_CR → editor.eOLMode ≠ SC_EOL_CRLF → editor.eOLMode ≠ SC_EOL_LF →
      (updateEol bar editor).eolFormat = bar.eolFormat) ∧
    (updateEol bar editor).docType = bar.docType ∧
    (updateEol bar editor).docSize = bar.docSize ∧
    (updateEol bar editor).docPos = bar.docPos ∧
    (updateEol bar editor).unicodeType = bar.unicodeType ∧
    (updateEol bar editor).overType = bar.overType ∧
    (updateEol bar editor).editorUiUpdated = bar.editorUiUpdated ∧
    (updateEol bar editor).documentLexerChanged = bar.documentLexerChanged := by
  refine ⟨?_, ?_, ?_, ?_, ?_⟩
  · intro h; simp [updateEol, h, tr]
  · intro h; simp [updateEol, h, tr, SC_EOL_CRLF, SC_EOL_CR]
  · intro h; simp [updateEol, h, tr, SC_EOL_CRLF, SC_EOL_CR, SC_EOL_LF]
  · intro h1 h2 h3; simp [updateEol, h1, h2, h3]
  · unfold updateEol
    split_ifs <;> exact ⟨rfl, rfl, rfl, rfl, rfl, rfl, rfl⟩

/-- Witness of `updateEol_text`: the three modes and the value 3, on a status
bar that showed "Unix (LF)". -/
theorem updateEol_text_witness :
    (updateEol new { sampleEditor with eOLMode := SC_EOL_CR }).eolFormat = "Macintosh (CR)" ∧
    (updateEol new sampleEditor).eolFormat = "Windows (CR LF)" ∧
    (updateEol new unixEditor).eolFormat = "Unix (LF)" ∧
    (updateEol (updateEol new unixEditor) oddEolEditor).eolFormat = "Unix (LF)" :=
  ⟨(updateEol_text new { sampleEditor with eOLMode := SC_EOL_CR }).1 (by decide),
   (updateEol_text new sampleEditor).2.1 (by decide),
   (updateEol_text new unixEditor).2.2.1 (by decide),
   ((updateEol_text (updateEol new unixEditor) oddEolEditor).2.2.2.1
      (by decide) (by decide) (by decide)).trans (by decide)⟩

/-- C9. For every integer code page c, `updateEncoding` sets the encoding
field to "ANSI" when c = 0, to "UTF-8" when c is the UTF-8 code page 65001,
and otherwise to the plain decimal rendering of c; the cases exclude each
other and cover every c, so the text never depends on the prior one. -/
theorem updateEncoding_text (bar : EditorInfoStatusBar) (editor : ScintillaNext) :
    (editor.codePage = 0 → (updateEncoding bar editor).unicodeType = "ANSI") ∧
    (editor.codePage = SC_CP_UTF8 → (updateEncoding bar editor).unicodeType = "UTF-8") ∧
    (editor.codePage ≠ 0 → editor.codePage ≠ SC_CP_UTF8 →
      (updateEncoding bar editor).unicodeType = toString editor.codePage) ∧
    SC_CP_UTF8 = 65001 ∧ (0 : Int) ≠ SC_CP_UTF8 ∧
    (∀ other : EditorInfoStatusBar,
      (updateEncoding other editor).unicodeType = (updateEncoding bar editor).unicodeType) := by
  refine ⟨?_, ?_, ?_, rfl, by decide, ?_⟩
  · intro h; simp [updateEncoding, h, tr]
  · intro h; simp [updateEncoding, h, tr, SC_CP_UTF8]
  · intro h1 h2; simp [updateEncoding, h1, h2, QString.number]
  · intro other
    unfold updateEncoding
    split_ifs <;> rfl

/-- Witness of `updateEncoding_text`: code pages 0, 65001 and 1252. -/
theorem updateEncoding_text_witness :
    (updateEncoding new { sampleEditor with codePage := 0 }).unicodeType = "ANSI" ∧
    (updateEncoding new sampleEditor).unicodeType = "UTF-8" ∧
    (updateEncoding new overtypeEditor).unicodeType = "1252" :=
  ⟨(updateEncoding_text new { sampleEditor with codePage := 0 }).1 (by decide),
   (updateEncoding_text new sampleEditor).2.1 (by decide),
   ((updateEncoding_text new overtypeEditor).2.2.1 (by decide) (by decide)).trans (by decide)⟩

/-- C7, as the code behaves. For every editor state whose EOL mode is CR, CRLF
or LF and every two prior panel states, `refresh` produces the same text in
all six fields. For every editor state whatsoever the size,
position/selection, language, encoding and insert-mode fields are recomputed
from the editor alone; with any other EOL mode the EOL field keeps the text
it had before the refresh. -/
theorem refresh_text (loc : QLocale) (bar1 bar2 : EditorInfoStatusBar)
    (editor : ScintillaNext) :
    (editor.eOLMode = SC_EOL_CR ∨ editor.eOLMode = SC_EOL_CRLF ∨ editor.eOLMode = SC_EOL_LF →
      SameText (refresh loc bar1 editor) (refresh loc bar2 editor)) ∧
    ((refresh loc bar1 editor).docSize = (refresh loc bar2 editor).docSize ∧
     (refresh loc bar1 editor).docPos = (refresh loc bar2 editor).docPos ∧
     (refresh loc bar1 editor).docType = (refresh loc bar2 editor).docType ∧
     (refresh loc bar1 editor).unicodeType = (refresh loc bar2 editor).unicodeType ∧
     (refresh loc bar1 editor).overType = (refresh loc bar2 editor).overType) ∧
    (editor.eOLMode ≠ SC_EOL_CR → editor.eOLMode ≠ SC_EOL_CRLF → editor.eOLMode ≠ SC_EOL_LF →
      (refresh loc bar1 editor).eolFormat = bar1.eolFormat) := by
  refine ⟨?_, ?_, ?_⟩
  · intro h
    unfold SameText refresh updateOverType updateEncoding updateEol
    rcases h with h | h | h
    · simp only [h]; split_ifs <;> simp [updateLanguage, updateSelectionInfo, updateDocumentSize]
    · simp only [h]; split_ifs <;> simp [updateLanguage, updateSelectionInfo, updateDocumentSize]
    · simp only [h]; split_ifs <;> simp [updateLanguage, updateSelectionInfo, updateDocumentSize]
  · unfold refresh updateOverType updateEncoding updateEol
    simp only []
    split_ifs <;> simp [updateLanguage, updateSelectionInfo, updateDocumentSize]
  · intro h1 h2 h3
    unfold refresh updateOverType updateEncoding updateEol
    simp only [h1, h2, h3, if_false]
    split_ifs <;> simp [updateLanguage, updateSelectionInfo, updateDocumentSize]

/-- Witness of `refresh_text`: a CRLF editor refreshed on an empty status bar
and on one showing another document; an editor with EOL mode 3 keeps the
"Unix (LF)" the status bar showed. -/
theorem refresh_text_witness :
    SameText (refresh enUS new sampleEditor)
      (refresh enUS (refresh enUS new overtypeEditor) sampleEditor) ∧
    (refresh enUS (refresh enUS new unixEditor) oddEolEditor).eolFormat = "Unix (LF)" :=
  ⟨(refresh_text enUS new (refresh enUS new overtypeEditor) sampleEditor).1
      (Or.inr (Or.inl (by decide))),
   ((refresh_text enUS (refresh enUS new unixEditor) (refresh enUS new unixEditor)
      oddEolEditor).2.2 (by decide) (by decide) (by decide)).trans (by decide)⟩

/-- C7 as stated fails: refreshing from an editor whose EOL mode is 3 leaves
"Unix (LF)" in the EOL field of a status bar that showed a Unix document and
"Windows (CR LF)" in the EOL field of one that showed a Windows document. -/
theorem refresh_counterexample :
    (refresh enUS (refresh enUS new unixEditor) oddEolEditor).eolFormat = "Unix (LF)" ∧
    (refresh enUS (refresh enUS new sampleEditor) oddEolEditor).eolFormat = "Windows (CR LF)" ∧
    (refresh enUS (refresh enUS new unixEditor) oddEolEditor).eolFormat
      ≠ (refresh enUS (refresh enUS new sampleEditor) oddEolEditor).eolFormat := by
  decide

/-- C2, as the code behaves. For every panel and editor state, clicking the
insert-mode field flips the editor's overtype flag and sets the field from the
new flag: "OVR" when the editor was in insert mode before the click, "INS"
when it was in overtype mode. When the field showed the editor's mode before
the click, it shows the opposite text afterwards. -/
theorem overTypeClicked_text (bar : EditorInfoStatusBar) (editor : ScintillaNext) :
    (overTypeClicked bar editor).2.overtype = (!editor.overtype) ∧
    (overTypeClicked bar editor).1.overType = (if editor.overtype then "INS" else "OVR") ∧
    (bar.overType = (if editor.overtype then "OVR" else "INS") →
      (bar.overType = "INS" → (overTypeClicked bar editor).1.overType = "OVR") ∧
      (bar.overType = "OVR" → (overTypeClicked bar editor).1.overType = "INS")) := by
  have h2 : (overTypeClicked bar editor).1.overType
      = (if editor.overtype then "INS" else "OVR") := by
    cases h : editor.overtype <;>
      simp [overTypeClicked, updateOverType, ScintillaNext.editToggleOvertype, h, tr]
  refine ⟨rfl, h2, ?_⟩
  intro hs
  rw [h2]
  cases h : editor.overtype
  · rw [h] at hs
    rw [hs]
    simp
  · rw [h] at hs
    rw [hs]
    simp

/-- Witness of `overTypeClicked_text`: a status bar showing "INS" for an
editor in insert mode shows "OVR" after the click. -/
theorem overTypeClicked_text_witness :
    (refresh enUS new sampleEditor).overType = "INS" ∧
    (overTypeClicked (refresh enUS new sampleEditor) sampleEditor).1.overType = "OVR" :=
  ⟨by decide,
   ((overTypeClicked_text (refresh enUS new sampleEditor) sampleEditor).2.2 (by decide)).1
     (by decide)⟩

/-- C2 as stated fails: the document is opened in insert mode and the field
shows "INS"; the user switches to overtype mode from the keyboard and the
updateUi notification leaves the field alone; the click switches the editor
back to insert mode and the field shows "INS" as before the click. -/
theorem overTypeClicked_counterexample :
    Window.Reachable keyToggledWindow ∧
    keyToggledWindow.bar.overType = "INS" ∧
    (keyToggledWindow.editors keyToggledWindow.currentEditor).overtype = true ∧
    (overTypeClicked keyToggledWindow.bar
      (keyToggledWindow.editors keyToggledWindow.currentEditor)).1.overType = "INS" ∧
    (Window.clickOverType keyToggledWindow).bar.overType = "INS" :=
  ⟨Window.Reachable.emit _ _ _ (Window.Reachable.userEdit _ _ _
      (Window.Reachable.connectToEditor _ _ (Window.Reachable.init _ _ _))),
    by decide, by decide, by decide, by decide⟩

end EditorInfoStatusBar

namespace Window

/-- C3. For all editors A and B, equal or distinct, and every state the
window can be in, after `connectToEditor(A)` followed by `connectToEditor(B)`
exactly two connections are live, one for updateUi and one for lexerChanged,
both from B and both held by the status bar's handles; and when A and B are
distinct, no updateUi or lexerChanged notification that A emits while these
connections stand changes the status bar. -/
theorem connectToEditor_rebind (w : Window) (hw : Reachable w) (A B : EditorId) :
    (∃ h1 h2, h1 ≠ h2 ∧
      (connectToEditor (connectToEditor w A) B).connections =
        [{ handle := h1, sender := B, signal := .updateUi, slot := .editorUpdated },
         { handle := h2, sender := B, signal := .lexerChanged, slot := .updateLanguage B }] ∧
      (connectToEditor (connectToEditor w A) B).bar.editorUiUpdated = some h1 ∧
      (connectToEditor (connectToEditor w A) B).bar.documentLexerChanged = some h2) ∧
    (((connectToEditor (connectToEditor w A) B).connections.filter
        (fun c => c.signal = Signal.updateUi)).map Connection.sender = [B]) ∧
    (((connectToEditor (connectToEditor w A) B).connections.filter
        (fun c => c.signal = Signal.lexerChanged)).map Connection.sender = [B]) ∧
    (A ≠ B → ∀ later : Window,
      later.connections = (connectToEditor (connectToEditor w A) B).connections →
      ∀ e : Emission, (emit later A e).bar = later.bar) := by
  have hA : Consistent (connectToEditor w A) :=
    consistent_connectToEditor w (reachable_consistent w hw) A
  have hc := connectToEditor_connections (connectToEditor w A) hA B
  obtain ⟨a, b, _⟩ := connectToEditor_handles (connectToEditor w A) B
  refine ⟨⟨_, _, by omega, hc, a, b⟩, ?_, ?_, ?_⟩
  · rw [hc]; simp
  · rw [hc]; simp
  · intro hne later hl e
    have hf : later.connections.filter (fun c => c.sender = A ∧ c.signal = e.signal) = [] := by
      rw [hl, hc]
      simp [Ne.symm hne]
    simp only [emit, hf, List.foldl_nil]

/-- Witness of `connectToEditor_rebind`: a new window is bound to editor 0 and
then to editor 1; editor 1 alone is connected, and a content update from
editor 0 leaves the status bar as it is. -/
theorem connectToEditor_rebind_witness :
    Reachable (init enUS (fun _ => sampleEditor) 0) ∧
    ((connectToEditor (connectToEditor (init enUS (fun _ => sampleEditor) 0) 0) 1).connections.filter
        (fun c => c.signal = Signal.updateUi)).map Connection.sender = [1] ∧
    (emit (connectToEditor (connectToEditor (init enUS (fun _ => sampleEditor) 0) 0) 1) 0
        (.updateUi Update.Content)).bar
      = (connectToEditor (connectToEditor (init enUS (fun _ => sampleEditor) 0) 0) 1).bar :=
  ⟨Reachable.init _ _ _,
   (connectToEditor_rebind _ (Reachable.init enUS (fun _ => sampleEditor) 0) 0 1).2.1,
   (connectToEditor_rebind _ (Reachable.init enUS (fun _ => sampleEditor) 0) 0 1).2.2.2
     (by decide) _ rfl _⟩

end Window

end NotepadNext
